import Mathlib

/-!
Verification of the local persistence and serialization subsystem of the
daily work-report application (src/app/page.tsx).

Shallow embedding conventions:

- A dayjs point-in-time value is embedded as `Dayjs`: either `valid f`,
  where `f` is the broken-down UTC datetime (year, month, day, hour,
  minute, second, millisecond) shown by `Date.prototype.toISOString`, or
  `invalid` (the dayjs object wrapping an Invalid Date).  Two valid dayjs
  values are value-equal exactly when their UTC fields coincide, so value
  equality of instants is structural equality of `DateTimeFields`.  The
  model is restricted to four-digit years (0..9999); the expanded-year
  formatting of `toISOString` outside that range is not modelled.
- `Dayjs.toISOString` returns `Option String`; `none` models the
  RangeError thrown by `Date.prototype.toISOString` on an invalid date.
- `dayjs` (string parsing) models the native `new Date(string)` parsing
  that the dayjs constructor applies to strings ending in Z: only the
  canonical `toISOString` layout YYYY-MM-DDTHH:mm:ss.sssZ (with in-range
  month, day-of-month, hour, minute and second) is accepted; every other
  string yields the invalid value.
- TypeScript `T | null` fields are embedded as `Option`; JavaScript
  truthiness tests on strings additionally treat the empty string as
  absent, and the embedding reproduces that where the source relies on it.
-/

namespace WorkReports


/-- Broken-down UTC datetime, the fields displayed by toISOString. -/
structure DateTimeFields where
  year : Nat
  month : Nat
  day : Nat
  hour : Nat
  minute : Nat
  second : Nat
  ms : Nat
deriving DecidableEq, Repr

/-- Gregorian leap-year test, as used by native Date month validation. -/
def isLeapYear (y : Nat) : Bool :=
  (y % 4 == 0 && y % 100 != 0) || y % 400 == 0

/-- Number of days in a month of the proleptic Gregorian calendar. -/
def daysInMonth (y m : Nat) : Nat :=
  if m = 2 then (if isLeapYear y then 29 else 28)
  else if m = 4 ∨ m = 6 ∨ m = 9 ∨ m = 11 then 30
  else 31

/-- Field tuples that denote a real instant presentable with a
four-digit year, i.e. the values reachable from real date data. -/
abbrev DateTimeFields.wf (f : DateTimeFields) : Prop :=
  f.year ≤ 9999 ∧ 1 ≤ f.month ∧ f.month ≤ 12 ∧ 1 ≤ f.day ∧
    f.day ≤ daysInMonth f.year f.month ∧
    f.hour ≤ 23 ∧ f.minute ≤ 59 ∧ f.second ≤ 59 ∧ f.ms ≤ 999

/-- The decimal digit character for n (meaningful for n below 10). -/
def digitChar (n : Nat) : Char := Char.ofNat (48 + n)

/-- Two-digit zero-padded decimal, as used by toISOString. -/
def pad2 (n : Nat) : List Char := [digitChar (n / 10), digitChar (n % 10)]

/-- Three-digit zero-padded decimal, as used by toISOString. -/
def pad3 (n : Nat) : List Char :=
  [digitChar (n / 100), digitChar (n / 10 % 10), digitChar (n % 10)]

/-- Four-digit zero-padded decimal, as used by toISOString. -/
def pad4 (n : Nat) : List Char :=
  [digitChar (n / 1000), digitChar (n / 100 % 10), digitChar (n / 10 % 10),
    digitChar (n % 10)]

/-- The text produced by Date.prototype.toISOString for the given
UTC fields: YYYY-MM-DDTHH:mm:ss.sssZ. -/
def formatISO (f : DateTimeFields) : String :=
  String.mk (pad4 f.year ++ ['-'] ++ pad2 f.month ++ ['-'] ++ pad2 f.day ++
    ['T'] ++ pad2 f.hour ++ [':'] ++ pad2 f.minute ++ [':'] ++ pad2 f.second ++
    ['.'] ++ pad3 f.ms ++ ['Z'])

/-- Value of a decimal digit character, none when not a digit. -/
def digitVal (c : Char) : Option Nat :=
  if c.isDigit then some (c.toNat - 48) else none

/-- Read a two-digit decimal number. -/
def d2 (a b : Char) : Option Nat :=
  match digitVal a, digitVal b with
  | some x, some y => some (10 * x + y)
  | _, _ => none

/-- Read a three-digit decimal number. -/
def d3 (a b c : Char) : Option Nat :=
  match digitVal a, digitVal b, digitVal c with
  | some x, some y, some z => some (100 * x + 10 * y + z)
  | _, _, _ => none

/-- Read a four-digit decimal number. -/
def d4 (a b c d : Char) : Option Nat :=
  match digitVal a, digitVal b, digitVal c, digitVal d with
  | some x, some y, some z, some w => some (1000 * x + 100 * y + 10 * z + w)
  | _, _, _, _ => none

/-- Parse the canonical toISOString layout from a character list.
Models the native Date parsing of an ISO string with Z offset; any
string outside the canonical layout or with out-of-range components
denotes an Invalid Date and yields none. -/
def parseISOChars : List Char → Option DateTimeFields
  | [y1, y2, y3, y4, c1, o1, o2, c2, a1, a2, c3, h1, h2, c4, i1, i2, c5,
      e1, e2, c6, m1, m2, m3, c7] =>
    if c1 = '-' ∧ c2 = '-' ∧ c3 = 'T' ∧ c4 = ':' ∧ c5 = ':' ∧ c6 = '.' ∧
        c7 = 'Z' then
      match d4 y1 y2 y3 y4, d2 o1 o2, d2 a1 a2, d2 h1 h2, d2 i1 i2,
          d2 e1 e2, d3 m1 m2 m3 with
      | some y, some mo, some dy, some hh, some mi, some ss, some ms =>
        if 1 ≤ mo ∧ mo ≤ 12 ∧ 1 ≤ dy ∧ dy ≤ daysInMonth y mo ∧ hh ≤ 23 ∧
            mi ≤ 59 ∧ ss ≤ 59 then
          some ⟨y, mo, dy, hh, mi, ss, ms⟩
        else none
      | _, _, _, _, _, _, _ => none
    else none
  | _ => none

/-- Parse a string in the canonical toISOString layout. -/
def parseISO (s : String) : Option DateTimeFields :=
  parseISOChars s.data

/-- A dayjs value: a valid instant given by its UTC fields, or the
wrapper around an Invalid Date. -/
inductive Dayjs where
  | valid (f : DateTimeFields)
  | invalid
deriving DecidableEq, Repr

/-- dayjs .toISOString, delegating to Date.prototype.toISOString; none
models the RangeError raised on an invalid date. -/
def Dayjs.toISOString : Dayjs → Option String
  | .valid f => some (formatISO f)
  | .invalid => none

/-- The dayjs constructor applied to a string (src/app/page.tsx uses it
in deserializeReport).  For strings ending in Z dayjs falls through to
native new Date(string) parsing; a string outside the recognised layout
yields an Invalid Date, never an exception. -/
def dayjs (s : String) : Dayjs :=
  match parseISO s with
  | some f => .valid f
  | none => .invalid

/-- dayjs .startOf applied with unit day: midnight of the same date. -/
def startOfDay (f : DateTimeFields) : DateTimeFields :=
  { f with hour := 0, minute := 0, second := 0, ms := 0 }

/-- dayjs .endOf applied with unit day: last millisecond of the date. -/
def endOfDay (f : DateTimeFields) : DateTimeFields :=
  { f with hour := 23, minute := 59, second := 59, ms := 999 }

/-- Order-faithful timestamp key standing in for Date valueOf: a
mixed-radix reading of the fields whose ordering on well-formed field
tuples coincides with the ordering of the epoch milliseconds. -/
def DateTimeFields.key (f : DateTimeFields) : Nat :=
  (((((f.year * 13 + f.month) * 32 + f.day) * 24 + f.hour) * 60 +
    f.minute) * 60 + f.second) * 1000 + f.ms

/-- dayjs .isSame with unit day, as called at src/app/page.tsx:624:
this.startOf(day) <= other && other <= this.endOf(day), where the
comparisons go through valueOf and any comparison against an Invalid
Date (NaN) is false. -/
def Dayjs.isSame : Dayjs → Dayjs → Bool
  | .valid f, .valid g =>
    decide ((startOfDay f).key ≤ g.key) && decide (g.key ≤ (endOfDay f).key)
  | _, _ => false

/-- Task, from src/app/page.tsx lines 12-17. -/
structure Task where
  startTime : Option Dayjs
  endTime : Option Dayjs
  description : String
  problems : Option String
deriving DecidableEq, Repr

/-- Report, from src/app/page.tsx lines 19-27.  The TypeScript interface
has no id field, but the runtime objects may carry one: generatePDF
stamps id before saving and deserializeReport spreads the stored record,
so the embedding records it as an optional field. -/
structure Report where
  id : Option Nat
  date : Dayjs
  firstName : String
  lastName : String
  arrivalTime : Option Dayjs
  departureTime : Option Dayjs
  tasks : List Task
  plannedTasks : String
deriving DecidableEq, Repr

/-- SerializedTask, from src/app/page.tsx lines 30-35. -/
structure SerializedTask where
  startTime : Option String
  endTime : Option String
  description : String
  problems : Option String
deriving DecidableEq, Repr

/-- SerializedReport, from src/app/page.tsx lines 37-46. -/
structure SerializedReport where
  id : Option Nat
  date : String
  firstName : String
  lastName : String
  arrivalTime : Option String
  departureTime : Option String
  tasks : List SerializedTask
  plannedTasks : String
deriving DecidableEq, Repr

/-- The expression pattern time?.toISOString() || null of serializeReport:
absent stays null, a present value is encoded (propagating the exception
of toISOString on an invalid date), and a falsy encoding collapses to
null. -/
def serializeTime : Option Dayjs → Option (Option String)
  | none => some none
  | some d =>
    match d.toISOString with
    | none => none
    | some s => some (if s = "" then none else some s)

/-- Serialization of one task inside serializeReport (lines 76-80). -/
def serializeTask (t : Task) : Option SerializedTask :=
  match serializeTime t.startTime, serializeTime t.endTime with
  | some s1, some s2 =>
    some { startTime := s1, endTime := s2, description := t.description,
           problems := t.problems }
  | _, _ => none

/-- tasks.map over serializeTask, with exception propagation. -/
def serializeTasks : List Task → Option (List SerializedTask)
  | [] => some []
  | t :: ts =>
    match serializeTask t, serializeTasks ts with
    | some st, some sts => some (st :: sts)
    | _, _ => none

/-- serializeReport, src/app/page.tsx lines 70-82.  The spread copies
the id (when present) and the scalar fields verbatim; the temporal
fields go through toISOString.  none models a thrown exception. -/
def serializeReport (r : Report) : Option SerializedReport :=
  match r.date.toISOString, serializeTime r.arrivalTime,
      serializeTime r.departureTime, serializeTasks r.tasks with
  | some ds, some sa, some sd, some sts =>
    some { id := r.id, date := ds, firstName := r.firstName,
           lastName := r.lastName, arrivalTime := sa, departureTime := sd,
           tasks := sts, plannedTasks := r.plannedTasks }
  | _, _, _, _ => none

/-- The expression pattern time ? dayjs(time) : null of deserializeReport:
null stays null, and by string truthiness an empty stored string also
decodes to null; any other string is given to dayjs. -/
def deserializeTime : Option String → Option Dayjs
  | none => none
  | some s => if s = "" then none else some (dayjs s)

/-- Deserialization of one task inside deserializeReport (lines 90-94). -/
def deserializeTask (t : SerializedTask) : Task :=
  { startTime := deserializeTime t.startTime,
    endTime := deserializeTime t.endTime,
    description := t.description, problems := t.problems }

/-- deserializeReport, src/app/page.tsx lines 84-96.  Total: dayjs never
raises on string input.  The date field is decoded unconditionally. -/
def deserializeReport (sr : SerializedReport) : Report :=
  { id := sr.id, date := dayjs sr.date, firstName := sr.firstName,
    lastName := sr.lastName,
    arrivalTime := deserializeTime sr.arrivalTime,
    departureTime := deserializeTime sr.departureTime,
    tasks := sr.tasks.map deserializeTask,
    plannedTasks := sr.plannedTasks }

/-- State of the reports object store: the persisted records in
ascending key order (IndexedDB stores records sorted by key, which is
what getAll returns) together with the state of the auto-increment key
generator created by initDB. -/
structure StoreState where
  records : List SerializedReport
  nextId : Nat
deriving DecidableEq, Repr

/-- In-memory React state touched by the persistence paths: the report
being edited, the error banner, the loaded past reports, plus the
durable database (none while the WorkReportsDB collection does not yet
exist). -/
structure AppState where
  report : Report
  error : Option String
  pastReports : List Report
  db : Option StoreState
deriving DecidableEq, Repr

/-- initDB, src/app/page.tsx lines 51-68: opens WorkReportsDB and, in
onupgradeneeded on first use only, creates the reports store with
keyPath id and autoIncrement; an existing collection is returned
untouched. -/
def initDB (db : Option StoreState) : StoreState :=
  match db with
  | none => { records := [], nextId := 1 }
  | some s => s

/-- The IndexedDB key of a stored record (records in the store always
carry their id, since the keyPath is id). -/
def recordKey (r : SerializedReport) : Nat := r.id.getD 0

/-- Insert a record into the key-ordered record list. -/
def insertSorted (rec : SerializedReport) : List SerializedReport → List SerializedReport
  | [] => [rec]
  | x :: xs =>
    if recordKey rec ≤ recordKey x then rec :: x :: xs
    else x :: insertSorted rec xs

/-- IDBObjectStore.add on the reports store.  A record that carries an
in-line key uses it (bumping the key generator past it) and fails with
ConstraintError when the key already exists; a record without one is
assigned the next generated key. -/
def saveToStore (s : StoreState) (rec : SerializedReport) : Option StoreState :=
  match rec.id with
  | some k =>
    if s.records.any (fun x => decide (x.id = some k)) then none
    else some { records := insertSorted rec s.records,
                nextId := max s.nextId (k + 1) }
  | none =>
    some { records := insertSorted { rec with id := some s.nextId } s.records,
           nextId := s.nextId + 1 }

/-- validateReport, src/app/page.tsx lines 250-272, returning the error
message it stores through setError together with its boolean result.
JavaScript string truthiness makes the empty string count as missing. -/
def validateReport (r : Report) : Option String × Bool :=
  if r.firstName = "" ∨ r.lastName = "" then
    (some "Veuillez remplir votre nom et pr\u00e9nom", false)
  else if r.arrivalTime = none ∨ r.departureTime = none then
    (some "Veuillez remplir les heures d\x27arriv\u00e9e et de d\u00e9part", false)
  else if r.tasks.any (fun t =>
      decide (t.startTime = none ∨ t.endTime = none ∨ t.description = "")) then
    (some "Veuillez remplir toutes les informations de la t\u00e2che", false)
  else (none, true)

/-- The persistence-relevant effect of generatePDF, src/app/page.tsx
lines 274-418 (the PDF drawing is out of scope).  now is the value of
Date.now(), openFails tells whether opening the database rejects.
Two behaviors of the source worth noting, both visible in the code:
the record handed to the store always carries the client-chosen id
Date.now() (line 408), and the statement await store.add(...) awaits an
IDBRequest, which is not a thenable, so the await resolves immediately
with the request object; an asynchronous write failure (for example a
ConstraintError on a duplicate key) therefore neither throws into the
catch block nor prevents the following setPastReports call.  A failed
open is modelled as creating nothing. -/
def generatePDF (st : AppState) (now : Nat) (openFails : Bool) : AppState :=
  match validateReport st.report with
  | (err, false) => { st with error := err }
  | (_, true) =>
    let st1 := { st with error := none }
    if openFails then
      { st1 with error := some "Failed to save report offline" }
    else
      let store := initDB st1.db
      let reportToSave := { st1.report with id := some now }
      match serializeReport reportToSave with
      | none =>
        { st1 with db := some store,
                   error := some "Failed to save report offline" }
      | some sr =>
        let store2 :=
          match saveToStore store sr with
          | some s2 => s2
          | none => store
        { st1 with db := some store2,
                   pastReports := st1.pastReports ++ [deserializeReport sr] }

/-- loadReports, src/app/page.tsx lines 168-189.  An open failure is
caught and only logged to the console (the state, including the error
banner, is untouched); a failing getAll never fires onsuccess, and no
onerror handler is installed, so the state is also untouched; on
success the past-reports list is rebuilt wholesale from the store. -/
def loadReports (st : AppState) (openFails readFails : Bool) : AppState :=
  if openFails then st
  else
    let store := initDB st.db
    if readFails then { st with db := some store }
    else { st with db := some store,
                   pastReports := store.records.map deserializeReport }

/-- The date filter over past reports, src/app/page.tsx line 624:
pastReports.filter of !searchDate || r.date.isSame(searchDate, day). -/
def filterByDate (reports : List Report) (searchDate : Option Dayjs) :
    List Report :=
  reports.filter (fun r =>
    match searchDate with
    | none => true
    | some d => r.date.isSame d)

/-- Array.prototype.map with the element index, used by updateTask. -/
def mapWithIndex (f : Nat → α → β) : Nat → List α → List β
  | _, [] => []
  | i, x :: xs => f i x :: mapWithIndex f (i + 1) xs

/-- Array.prototype.filter with the element index, used by removeTask. -/
def filterWithIndex (p : Nat → α → Bool) : Nat → List α → List α
  | _, [] => []
  | i, x :: xs =>
    if p i x then x :: filterWithIndex p (i + 1) xs
    else filterWithIndex p (i + 1) xs

/-- The field names of Task (keyof Task). -/
inductive TaskField where
  | startTime
  | endTime
  | description
  | problems
deriving DecidableEq, Repr

/-- A field value of Task, tagged by the type of the field. -/
inductive FieldVal where
  | time (v : Option Dayjs)
  | str (v : String)
  | ostr (v : Option String)
deriving DecidableEq, Repr

/-- A type-correct (field, value) pair for the computed-key update
performed by updateTask. -/
inductive TaskUpdate where
  | startTime (v : Option Dayjs)
  | endTime (v : Option Dayjs)
  | description (v : String)
  | problems (v : Option String)
deriving DecidableEq, Repr

/-- The field an update writes. -/
def TaskUpdate.field : TaskUpdate → TaskField
  | .startTime _ => .startTime
  | .endTime _ => .endTime
  | .description _ => .description
  | .problems _ => .problems

/-- The value an update writes. -/
def TaskUpdate.val : TaskUpdate → FieldVal
  | .startTime v => .time v
  | .endTime v => .time v
  | .description v => .str v
  | .problems v => .ostr v

/-- The spread-with-computed-key expression of updateTask. -/
def Task.setField (t : Task) : TaskUpdate → Task
  | .startTime v => { t with startTime := v }
  | .endTime v => { t with endTime := v }
  | .description v => { t with description := v }
  | .problems v => { t with problems := v }

/-- Read one field of a task. -/
def Task.getField (t : Task) : TaskField → FieldVal
  | .startTime => .time t.startTime
  | .endTime => .time t.endTime
  | .description => .str t.description
  | .problems => .ostr t.problems

/-- updateTask, src/app/page.tsx lines 237-248. -/
def updateTask (r : Report) (index : Nat) (u : TaskUpdate) : Report :=
  { r with tasks :=
      mapWithIndex (fun i t => if i = index then t.setField u else t) 0 r.tasks }

/-- removeTask, src/app/page.tsx lines 230-235. -/
def removeTask (r : Report) (index : Nat) : Report :=
  { r with tasks :=
      filterWithIndex (fun i _ => decide (i ≠ index)) 0 r.tasks }

/-- A dayjs value wrapping a real (valid) instant in the modelled
range; the serialization round trip is stated over these. -/
def Dayjs.validWf : Dayjs → Prop
  | .valid f => f.wf
  | .invalid => False

instance : (d : Dayjs) → Decidable d.validWf
  | .valid f => inferInstanceAs (Decidable f.wf)
  | .invalid => inferInstanceAs (Decidable False)

/-- A dayjs value whose fields are in range whenever it is valid; every
value produced by the dayjs constructor satisfies this. -/
def Dayjs.wfOrInvalid : Dayjs → Prop
  | .valid f => f.wf
  | .invalid => True

instance : (d : Dayjs) → Decidable d.wfOrInvalid
  | .valid f => inferInstanceAs (Decidable f.wf)
  | .invalid => inferInstanceAs (Decidable True)

/-- An absent or valid-and-in-range temporal field. -/
def optWf : Option Dayjs → Prop
  | none => True
  | some d => d.validWf

instance : (x : Option Dayjs) → Decidable (optWf x)
  | none => inferInstanceAs (Decidable True)
  | some d => inferInstanceAs (Decidable d.validWf)

/-- A valid Report in the sense of the round-trip law: every temporal
field is either null or a real instant in the modelled range. -/
abbrev Report.wf (r : Report) : Prop :=
  r.date.validWf ∧ optWf r.arrivalTime ∧ optWf r.departureTime ∧
    ∀ t ∈ r.tasks, optWf t.startTime ∧ optWf t.endTime

/-- Same-calendar-day predicate as the specification words it: the two
dates agree on year, month and day of month; an invalid date falls on
no calendar day. -/
def sameCalendarDay : Dayjs → DateTimeFields → Bool
  | .valid f, g => decide (f.year = g.year ∧ f.month = g.month ∧ f.day = g.day)
  | .invalid, _ => false

/-- Concrete example instant: 2024-05-01 08:00:00.000 UTC. -/
def exFields : DateTimeFields :=
  { year := 2024, month := 5, day := 1, hour := 8, minute := 0, second := 0,
    ms := 0 }

/-- Concrete valid example report (the save/reload scenario of the
specification). -/
def exReport : Report :=
  { id := none, date := .valid exFields, firstName := "Jean",
    lastName := "Dupont",
    arrivalTime := some (.valid { exFields with hour := 8 }),
    departureTime := some (.valid { exFields with hour := 17 }),
    tasks := [{ startTime := some (.valid { exFields with hour := 9 }),
                endTime := some (.valid { exFields with hour := 10 }),
                description := "Setup", problems := some "" }],
    plannedTasks := "Review" }

/-- The serialization of exReport stamped with id 5. -/
def exSr : SerializedReport :=
  { id := some 5, date := "2024-05-01T08:00:00.000Z",
    firstName := "Jean", lastName := "Dupont",
    arrivalTime := some "2024-05-01T08:00:00.000Z",
    departureTime := some "2024-05-01T17:00:00.000Z",
    tasks := [{ startTime := some "2024-05-01T09:00:00.000Z",
                endTime := some "2024-05-01T10:00:00.000Z",
                description := "Setup", problems := some "" }],
    plannedTasks := "Review" }

/-- The serialization of exReport without an id. -/
def exSrNone : SerializedReport := { exSr with id := none }

/-- App state holding exReport over an empty, freshly created store. -/
def exState0 : AppState :=
  { report := exReport, error := none, pastReports := [],
    db := some { records := [], nextId := 1 } }

/-- App state whose store already holds a record under key 5. -/
def exStateDup : AppState :=
  { report := exReport, error := none, pastReports := [],
    db := some { records := [exSr], nextId := 6 } }

/-- Report with all nullable temporal fields null and no tasks. -/
def exReportNulls : Report :=
  { exReport with arrivalTime := none, departureTime := none, tasks := [] }

/-- The serialization of exReportNulls. -/
def exSrNulls : SerializedReport :=
  { exSrNone with arrivalTime := none, departureTime := none, tasks := [] }

/-- Task with both temporal fields null. -/
def exTaskNulls : Task :=
  { startTime := none, endTime := none, description := "x", problems := none }

/-- The serialization of exTaskNulls. -/
def exStNulls : SerializedTask :=
  { startTime := none, endTime := none, description := "x", problems := none }

/-- Report missing a required field: empty first name. -/
def exReportInvalid : Report := { exReport with firstName := "" }

/-- App state editing exReportInvalid over an empty store. -/
def exStateInvalid : AppState := { exState0 with report := exReportInvalid }

/-- A two-task report for the frame-property witnesses. -/
def exReport2 : Report :=
  { exReport with tasks := [exTaskNulls,
      { startTime := none, endTime := none, description := "b",
        problems := none }] }

theorem digitVal_digitChar : ∀ n < 10, digitVal (digitChar n) = some n := by
  decide

theorem d2_pad2 (n : Nat) (h : n ≤ 99) :
    d2 (digitChar (n / 10)) (digitChar (n % 10)) = some n := by
  rw [d2, digitVal_digitChar _ (by omega), digitVal_digitChar _ (by omega)]
  simp only [Option.some.injEq]
  omega

theorem d3_pad3 (n : Nat) (h : n ≤ 999) :
    d3 (digitChar (n / 100)) (digitChar (n / 10 % 10)) (digitChar (n % 10)) =
      some n := by
  rw [d3, digitVal_digitChar _ (by omega), digitVal_digitChar _ (by omega),
    digitVal_digitChar _ (by omega)]
  simp only [Option.some.injEq]
  omega

theorem d4_pad4 (n : Nat) (h : n ≤ 9999) :
    d4 (digitChar (n / 1000)) (digitChar (n / 100 % 10))
      (digitChar (n / 10 % 10)) (digitChar (n % 10)) = some n := by
  rw [d4, digitVal_digitChar _ (by omega), digitVal_digitChar _ (by omega),
    digitVal_digitChar _ (by omega), digitVal_digitChar _ (by omega)]
  simp only [Option.some.injEq]
  omega

theorem daysInMonth_le_31 (y m : Nat) : daysInMonth y m ≤ 31 := by
  unfold daysInMonth
  split
  · split <;> omega
  · split <;> omega

theorem parseISO_formatISO (f : DateTimeFields) (h : f.wf) :
    parseISO (formatISO f) = some f := by
  obtain ⟨h1, h2, h3, h4, h5, h6, h7, h8, h9⟩ := h
  have hdm := daysInMonth_le_31 f.year f.month
  show parseISOChars (formatISO f).data = some f
  simp only [formatISO, pad4, pad2, pad3, List.cons_append, List.nil_append]
  simp only [parseISOChars]
  rw [if_pos ⟨trivial, trivial, trivial, trivial, trivial, trivial, trivial⟩]
  rw [d4_pad4 _ (by omega), d2_pad2 _ (by omega), d2_pad2 _ (by omega),
    d2_pad2 _ (by omega), d2_pad2 _ (by omega), d2_pad2 _ (by omega),
    d3_pad3 _ (by omega)]
  show (if 1 ≤ f.month ∧ f.month ≤ 12 ∧ 1 ≤ f.day ∧
      f.day ≤ daysInMonth f.year f.month ∧ f.hour ≤ 23 ∧ f.minute ≤ 59 ∧
      f.second ≤ 59 then
    some (⟨f.year, f.month, f.day, f.hour, f.minute, f.second, f.ms⟩ :
      DateTimeFields)
  else none) = some f
  rw [if_pos ⟨h2, h3, h4, h5, h6, h7, h8⟩]

theorem formatISO_ne_empty (f : DateTimeFields) : formatISO f ≠ "" := by
  intro h
  have h2 := congrArg String.length h
  simp only [formatISO, String.length, pad4, pad2, pad3, List.cons_append,
    List.nil_append, List.length_cons] at h2
  simp at h2

theorem deserializeTime_serializeTime (x : Option Dayjs) (h : optWf x) :
    ∃ y, serializeTime x = some y ∧ deserializeTime y = x := by
  match x with
  | none => exact ⟨none, rfl, rfl⟩
  | some (.valid f) =>
    refine ⟨some (formatISO f), ?_, ?_⟩
    · simp [serializeTime, Dayjs.toISOString, if_neg (formatISO_ne_empty f)]
    · simp [deserializeTime, if_neg (formatISO_ne_empty f), dayjs,
        parseISO_formatISO f h]
  | some .invalid => exact absurd h (by simp [optWf, Dayjs.validWf])

theorem deserializeTask_serializeTask (t : Task) (h1 : optWf t.startTime)
    (h2 : optWf t.endTime) :
    ∃ st, serializeTask t = some st ∧ deserializeTask st = t := by
  obtain ⟨y1, hy1, hd1⟩ := deserializeTime_serializeTime t.startTime h1
  obtain ⟨y2, hy2, hd2⟩ := deserializeTime_serializeTime t.endTime h2
  refine ⟨{ startTime := y1, endTime := y2, description := t.description,
            problems := t.problems }, ?_, ?_⟩
  · simp [serializeTask, hy1, hy2]
  · simp [deserializeTask, hd1, hd2]

theorem serializeTasks_roundTrip (ts : List Task)
    (h : ∀ t ∈ ts, optWf t.startTime ∧ optWf t.endTime) :
    ∃ sts, serializeTasks ts = some sts ∧ sts.map deserializeTask = ts := by
  induction ts with
  | nil => exact ⟨[], rfl, rfl⟩
  | cons t ts ih =>
    obtain ⟨h1, h2⟩ := h t (by simp)
    obtain ⟨st, hst, hdt⟩ := deserializeTask_serializeTask t h1 h2
    obtain ⟨sts, hsts, hdts⟩ := ih (fun x hx => h x (by simp [hx]))
    refine ⟨st :: sts, ?_, ?_⟩
    · simp [serializeTasks, hst, hsts]
    · simp [hdt, hdts]

/-- C2: for every valid Report r (empty task lists, null optional
temporal fields and an assigned id included), serialization succeeds
and deserializing the result gives back a Report deep-equal to r, with
value equality of the temporal fields. -/
theorem serializeReport_roundTrip (r : Report) (h : r.wf) :
    ∃ sr, serializeReport r = some sr ∧ deserializeReport sr = r := by
  obtain ⟨rid, rdate, rfn, rln, rat, rdt, rts, rpt⟩ := r
  obtain ⟨hd, ha, hdep, hts⟩ := h
  obtain ⟨ya, hya, hda⟩ := deserializeTime_serializeTime rat ha
  obtain ⟨yd, hyd, hdd⟩ := deserializeTime_serializeTime rdt hdep
  obtain ⟨sts, hsts, hdts⟩ := serializeTasks_roundTrip rts hts
  cases rdate with
  | invalid => exact absurd hd (by simp [Dayjs.validWf])
  | valid f =>
    refine ⟨{ id := rid, date := formatISO f, firstName := rfn,
              lastName := rln, arrivalTime := ya, departureTime := yd,
              tasks := sts, plannedTasks := rpt }, ?_, ?_⟩
    · simp [serializeReport, Dayjs.toISOString, hya, hyd, hsts]
    · simp [deserializeReport, dayjs, parseISO_formatISO f hd, hda, hdd, hdts]

/-- Witness for C2 at the save scenario report of the specification. -/
theorem serializeReport_roundTrip_witness :
    serializeReport exReport = some exSrNone ∧
      deserializeReport exSrNone = exReport := by
  obtain ⟨sr, h1, h2⟩ := serializeReport_roundTrip exReport (by decide)
  have hc : serializeReport exReport = some exSrNone := by decide
  have he : exSrNone = sr := by
    have h3 := hc.symm.trans h1
    injection h3
  rw [← he] at h2
  exact ⟨hc, h2⟩

theorem serializeReport_fields (r : Report) (sr : SerializedReport)
    (h : serializeReport r = some sr) :
    sr.id = r.id ∧ serializeTime r.arrivalTime = some sr.arrivalTime ∧
      serializeTime r.departureTime = some sr.departureTime := by
  unfold serializeReport at h
  split at h
  · injection h with h
    subst h
    rename_i ds sa sd sts hd ha hdep hts
    exact ⟨rfl, ha, hdep⟩
  · exact absurd h (by simp)

theorem serializeTask_fields (t : Task) (st : SerializedTask)
    (h : serializeTask t = some st) :
    serializeTime t.startTime = some st.startTime ∧
      serializeTime t.endTime = some st.endTime := by
  unfold serializeTask at h
  split at h
  · injection h with h
    subst h
    rename_i s1 s2 h1 h2
    exact ⟨h1, h2⟩
  · exact absurd h (by simp)

/-- C6: the codec and both serializer directions preserve null for every
nullable temporal field (arrivalTime, departureTime and the start and
end times of tasks): a null never becomes a sentinel or current date,
and a stored null never becomes a temporal value. -/
theorem null_preservation (r : Report) (sr : SerializedReport) (t : Task)
    (st : SerializedTask) (x : SerializedReport) (y : SerializedTask)
    (hr : serializeReport r = some sr) (ht : serializeTask t = some st)
    (h1 : r.arrivalTime = none) (h2 : r.departureTime = none)
    (h3 : t.startTime = none) (h4 : t.endTime = none)
    (h5 : x.arrivalTime = none) (h6 : x.departureTime = none)
    (h7 : y.startTime = none) (h8 : y.endTime = none) :
    serializeTime none = some none ∧ deserializeTime none = none ∧
    sr.arrivalTime = none ∧ sr.departureTime = none ∧
    st.startTime = none ∧ st.endTime = none ∧
    (deserializeReport x).arrivalTime = none ∧
    (deserializeReport x).departureTime = none ∧
    (deserializeTask y).startTime = none ∧
    (deserializeTask y).endTime = none := by
  obtain ⟨-, ha, hdep⟩ := serializeReport_fields r sr hr
  obtain ⟨hs1, hs2⟩ := serializeTask_fields t st ht
  rw [h1] at ha
  rw [h2] at hdep
  rw [h3] at hs1
  rw [h4] at hs2
  refine ⟨rfl, rfl, ?_, ?_, ?_, ?_, ?_, ?_, ?_, ?_⟩
  · simpa [serializeTime] using ha.symm
  · simpa [serializeTime] using hdep.symm
  · simpa [serializeTime] using hs1.symm
  · simpa [serializeTime] using hs2.symm
  · simp [deserializeReport, deserializeTime, h5]
  · simp [deserializeReport, deserializeTime, h6]
  · simp [deserializeTask, deserializeTime, h7]
  · simp [deserializeTask, deserializeTime, h8]

/-- Witness for C6 at a report and a task whose nullable temporal
fields are all null. -/
theorem null_preservation_witness :
    serializeTime none = some none ∧ deserializeTime none = none ∧
    exSrNulls.arrivalTime = none ∧ exSrNulls.departureTime = none ∧
    exStNulls.startTime = none ∧ exStNulls.endTime = none ∧
    (deserializeReport exSrNulls).arrivalTime = none ∧
    (deserializeReport exSrNulls).departureTime = none ∧
    (deserializeTask exStNulls).startTime = none ∧
    (deserializeTask exStNulls).endTime = none :=
  null_preservation exReportNulls exSrNulls exTaskNulls exStNulls exSrNulls
    exStNulls (by decide) (by decide) (by decide) (by decide) (by decide)
    (by decide) (by decide) (by decide) (by decide) (by decide)

/-- C7 counterexample: deserialization maps the non-null stored string
of length zero to null, not to a temporal value, because of string
truthiness, while a malformed non-empty string becomes the invalid
sentinel. -/
theorem decode_empty_string_yields_null :
    deserializeTime (some "") = none ∧ dayjs "not-a-date" = Dayjs.invalid := by
  exact ⟨by decide, by decide⟩

/-- C7 amended: for every non-null, non-empty stored string the decoder
completes and yields the dayjs parse of the string, which is the
invalid sentinel whenever the string is not a canonical date string; a
non-null empty string is treated as absent and decodes to null; the
non-nullable date field always decodes to a temporal value.  No error
is raised for any input. -/
theorem decode_total (s : String) (x : SerializedReport) (h : s ≠ "") :
    deserializeTime (some s) = some (dayjs s) ∧
    (deserializeReport x).date = dayjs x.date ∧
    (parseISO s = none → dayjs s = Dayjs.invalid) := by
  refine ⟨?_, rfl, ?_⟩
  · simp [deserializeTime, if_neg h]
  · intro hp
    simp [dayjs, hp]

/-- Witness for C7 at the malformed string of the specification
scenario. -/
theorem decode_total_witness :
    deserializeTime (some "not-a-date") = some (dayjs "not-a-date") ∧
    (deserializeReport exSr).date = dayjs exSr.date ∧
    (parseISO "not-a-date" = none → dayjs "not-a-date" = Dayjs.invalid) :=
  decode_total "not-a-date" exSr (by decide)

theorem isSame_day_eq (a : Dayjs) (g : DateTimeFields) (ha : a.wfOrInvalid)
    (hg : g.wf) : a.isSame (.valid g) = sameCalendarDay a g := by
  cases a with
  | invalid => rfl
  | valid f =>
    have haf : f.wf := ha
    obtain ⟨f1, f2, f3, f4, f5, f6, f7, f8, f9⟩ := haf
    obtain ⟨g1, g2, g3, g4, g5, g6, g7, g8, g9⟩ := hg
    have hdf := daysInMonth_le_31 f.year f.month
    have hdg := daysInMonth_le_31 g.year g.month
    simp only [Dayjs.isSame, sameCalendarDay, startOfDay, endOfDay,
      DateTimeFields.key]
    rw [Bool.eq_iff_iff]
    simp only [Bool.and_eq_true, decide_eq_true_eq]
    omega

/-- C4: filtering with a null search date is the identity; filtering
with a valid date d keeps exactly the reports whose date falls on the
same calendar day as d, ignoring the time of day; and the result is a
sublist of the input, so the original relative order is preserved. -/
theorem filterByDate_correct (l : List Report) (d : DateTimeFields)
    (hd : d.wf) (hl : ∀ r ∈ l, r.date.wfOrInvalid) :
    filterByDate l none = l ∧
    filterByDate l (some (Dayjs.valid d)) =
      l.filter (fun r => sameCalendarDay r.date d) ∧
    List.Sublist (filterByDate l (some (Dayjs.valid d))) l := by
  refine ⟨?_, ?_, ?_⟩
  · simp [filterByDate]
  · exact List.filter_congr (fun r hr => isSame_day_eq r.date d (hl r hr) hd)
  · exact List.filter_sublist l

/-- Witness for C4 on a one-report list and the report date itself. -/
theorem filterByDate_correct_witness :
    filterByDate [exReport] none = [exReport] ∧
    filterByDate [exReport] (some (Dayjs.valid exFields)) =
      [exReport].filter (fun r => sameCalendarDay r.date exFields) ∧
    List.Sublist (filterByDate [exReport] (some (Dayjs.valid exFields)))
      [exReport] :=
  filterByDate_correct [exReport] exFields (by decide) (by decide)

theorem validateReport_of_true (r : Report)
    (h : (validateReport r).2 = true) : validateReport r = (none, true) := by
  unfold validateReport at h ⊢
  split at h
  · simp at h
  · split at h
    · simp at h
    · split at h
      · simp at h
      · simp_all

/-- C5: a report with a missing required field (empty first or last
name, absent arrival or departure time, or some task with an absent
start time, absent end time or empty description) is rejected by
validateReport with one of its three specific messages, and generatePDF
then only stores that message in the error state: the database, the
past-reports list and the report are untouched. -/
theorem validation_gating (st : AppState) (now : Nat) (openFails : Bool)
    (h : st.report.firstName = "" ∨ st.report.lastName = "" ∨
      st.report.arrivalTime = none ∨ st.report.departureTime = none ∨
      ∃ t ∈ st.report.tasks,
        t.startTime = none ∨ t.endTime = none ∨ t.description = "") :
    (validateReport st.report).2 = false ∧
    ((validateReport st.report).1 =
        some "Veuillez remplir votre nom et prénom" ∨
      (validateReport st.report).1 =
        some "Veuillez remplir les heures d\x27arrivée et de départ" ∨
      (validateReport st.report).1 =
        some "Veuillez remplir toutes les informations de la tâche") ∧
    generatePDF st now openFails =
      { st with error := (validateReport st.report).1 } := by
  by_cases c1 : st.report.firstName = "" ∨ st.report.lastName = ""
  · have hv : validateReport st.report =
        (some "Veuillez remplir votre nom et prénom", false) := by
      unfold validateReport
      rw [if_pos c1]
    refine ⟨by rw [hv], Or.inl (by rw [hv]), ?_⟩
    unfold generatePDF
    rw [hv]
  · by_cases c2 : st.report.arrivalTime = none ∨ st.report.departureTime = none
    · have hv : validateReport st.report =
          (some "Veuillez remplir les heures d\x27arrivée et de départ",
            false) := by
        unfold validateReport
        rw [if_neg c1, if_pos c2]
      refine ⟨by rw [hv], Or.inr (Or.inl (by rw [hv])), ?_⟩
      unfold generatePDF
      rw [hv]
    · by_cases c3 : st.report.tasks.any (fun t =>
          decide (t.startTime = none ∨ t.endTime = none ∨
            t.description = "")) = true
      · have hv : validateReport st.report =
            (some "Veuillez remplir toutes les informations de la tâche",
              false) := by
          unfold validateReport
          rw [if_neg c1, if_neg c2, if_pos c3]
        refine ⟨by rw [hv], Or.inr (Or.inr (by rw [hv])), ?_⟩
        unfold generatePDF
        rw [hv]
      · exfalso
        rcases h with h | h | h | h | ⟨t, ht, hcase⟩
        · exact c1 (Or.inl h)
        · exact c1 (Or.inr h)
        · exact c2 (Or.inl h)
        · exact c2 (Or.inr h)
        · exact c3 (List.any_eq_true.mpr ⟨t, ht, decide_eq_true hcase⟩)

/-- Witness for C5 at a report whose first name is empty. -/
theorem validation_gating_witness :
    (validateReport exStateInvalid.report).2 = false ∧
    ((validateReport exStateInvalid.report).1 =
        some "Veuillez remplir votre nom et prénom" ∨
      (validateReport exStateInvalid.report).1 =
        some "Veuillez remplir les heures d\x27arrivée et de départ" ∨
      (validateReport exStateInvalid.report).1 =
        some "Veuillez remplir toutes les informations de la tâche") ∧
    generatePDF exStateInvalid 5 false =
      { exStateInvalid with error := (validateReport exStateInvalid.report).1 } :=
  validation_gating exStateInvalid 5 false (Or.inl (by decide))

/-- C8: initDB is idempotent across the application lifetime: opening
over an existing collection returns it unchanged (no data loss, no
duplicate creation), repeated open-after-open changes nothing, and the
first open creates the empty collection with its auto-increment key
generator starting at 1. -/
theorem initDB_idempotent (db : Option StoreState) (s : StoreState) :
    initDB (some (initDB db)) = initDB db ∧ initDB (some s) = s ∧
    initDB none = { records := [], nextId := 1 } :=
  ⟨rfl, rfl, rfl⟩

theorem mem_insertSorted (rec : SerializedReport)
    (l : List SerializedReport) : rec ∈ insertSorted rec l := by
  induction l with
  | nil => simp [insertSorted]
  | cons x xs ih =>
    unfold insertSorted
    split
    · simp
    · simp [ih]

theorem generatePDF_success (st : AppState) (now : Nat)
    (sr : SerializedReport) (hv : (validateReport st.report).2 = true)
    (hs : serializeReport { st.report with id := some now } = some sr) :
    generatePDF st now false =
      { st with
        error := none,
        db := some (match saveToStore (initDB st.db) sr with
                    | some s2 => s2
                    | none => initDB st.db),
        pastReports := st.pastReports ++ [deserializeReport sr] } := by
  unfold generatePDF
  rw [validateReport_of_true st.report hv]
  show (if false = true then _ else _) = _
  rw [if_neg (by simp)]
  simp only []
  rw [hs]

/-- C1 amended: the save path never lets the store assign the identity;
it stamps the client clock value Date.now() on the report before the
insert, so the persisted identity is the client-chosen timestamp and
not the auto-increment counter, and the copy appended to pastReports
carries that same identity.  When no stored record already uses the
timestamp, the stamped record enters the store and the key generator is
bumped past the timestamp. -/
theorem save_uses_client_id (st : AppState) (now : Nat)
    (sr : SerializedReport) (hv : (validateReport st.report).2 = true)
    (hs : serializeReport { st.report with id := some now } = some sr)
    (hf : (initDB st.db).records.any
      (fun x => decide (x.id = some now)) = false) :
    sr.id = some now ∧ (deserializeReport sr).id = some now ∧
    (generatePDF st now false).pastReports =
      st.pastReports ++ [deserializeReport sr] ∧
    (generatePDF st now false).db =
      some { records := insertSorted sr (initDB st.db).records,
             nextId := max (initDB st.db).nextId (now + 1) } ∧
    sr ∈ insertSorted sr (initDB st.db).records := by
  have hid : sr.id = some now := (serializeReport_fields _ _ hs).1
  have hsave : saveToStore (initDB st.db) sr =
      some { records := insertSorted sr (initDB st.db).records,
             nextId := max (initDB st.db).nextId (now + 1) } := by
    unfold saveToStore
    rw [hid]
    show (if ((initDB st.db).records.any
        fun x => decide (x.id = some now)) = true then none else _) = _
    rw [hf]
    simp
  have hgen := generatePDF_success st now sr hv hs
  rw [hsave] at hgen
  refine ⟨hid, ?_, ?_, ?_, mem_insertSorted sr _⟩
  · simp [deserializeReport, hid]
  · rw [hgen]
  · rw [hgen]

/-- Witness for C1 on an empty store with clock value 5. -/
theorem save_uses_client_id_witness :
    exSr.id = some 5 ∧ (deserializeReport exSr).id = some 5 ∧
    (generatePDF exState0 5 false).pastReports =
      exState0.pastReports ++ [deserializeReport exSr] ∧
    (generatePDF exState0 5 false).db =
      some { records := insertSorted exSr (initDB exState0.db).records,
             nextId := max (initDB exState0.db).nextId (5 + 1) } ∧
    exSr ∈ insertSorted exSr (initDB exState0.db).records :=
  save_uses_client_id exState0 5 exSr (by decide) (by decide) (by decide)

/-- C1 counterexample: saving into an empty collection whose key
generator stands at 1 persists the record under the client-chosen
Date.now() value 5, not under a store-assigned identity, and a second
insert in the same millisecond yields no new identity at all: the store
still holds exactly the one record. -/
theorem client_id_counterexample :
    (generatePDF exState0 5 false).db =
      some { records := [exSr], nextId := 6 } ∧
    (initDB exState0.db).nextId = 1 ∧
    (generatePDF (generatePDF exState0 5 false) 5 false).db =
      some { records := [exSr], nextId := 6 } :=
  ⟨by decide, by decide, by decide⟩

/-- C3 amended: on the save path an open failure (and likewise a
synchronous serialization failure) is caught and surfaced as the
user-visible message Failed to save report offline, with the report,
the past-reports list and the database unchanged.  On the load path
failures are only logged to the console: no user-visible error is set
and the in-memory state is unchanged.  An asynchronous insert failure
(a duplicate key) is not observed by the save path at all: no error
message is set, the store keeps its previous contents, and the
deserialized report is nevertheless appended to pastReports. -/
theorem storage_failure_handling (st : AppState) (now : Nat) (rf : Bool)
    (sr : SerializedReport)
    (hv : (validateReport st.report).2 = true)
    (hs : serializeReport { st.report with id := some now } = some sr)
    (hdup : (initDB st.db).records.any
      (fun x => decide (x.id = some now)) = true) :
    generatePDF st now true =
      { st with error := some "Failed to save report offline" } ∧
    loadReports st true rf = st ∧
    loadReports st false true = { st with db := some (initDB st.db) } ∧
    (generatePDF st now false).error = none ∧
    (generatePDF st now false).db = some (initDB st.db) ∧
    (generatePDF st now false).pastReports =
      st.pastReports ++ [deserializeReport sr] := by
  have hid : sr.id = some now := (serializeReport_fields _ _ hs).1
  have hsave : saveToStore (initDB st.db) sr = none := by
    unfold saveToStore
    rw [hid]
    show (if ((initDB st.db).records.any
        fun x => decide (x.id = some now)) = true then none else _) = _
    rw [hdup]
    simp
  have hgen := generatePDF_success st now sr hv hs
  rw [hsave] at hgen
  refine ⟨?_, ?_, ?_, ?_, ?_, ?_⟩
  · unfold generatePDF
    rw [validateReport_of_true st.report hv]
    exact rfl
  · rfl
  · rfl
  · rw [hgen]
  · rw [hgen]
  · rw [hgen]

/-- Witness for C3 over a store that already holds a record under the
key equal to the clock value 5. -/
theorem storage_failure_handling_witness :
    generatePDF exStateDup 5 true =
      { exStateDup with error := some "Failed to save report offline" } ∧
    loadReports exStateDup true false = exStateDup ∧
    loadReports exStateDup false true =
      { exStateDup with db := some (initDB exStateDup.db) } ∧
    (generatePDF exStateDup 5 false).error = none ∧
    (generatePDF exStateDup 5 false).db = some (initDB exStateDup.db) ∧
    (generatePDF exStateDup 5 false).pastReports =
      exStateDup.pastReports ++ [deserializeReport exSr] :=
  storage_failure_handling exStateDup 5 false exSr (by decide) (by decide)
    (by decide)

/-- C3 counterexample: with a record already stored under key 5, saving
a valid report at Date.now() equal to 5 makes the insert fail
(saveToStore yields none), yet no error message is surfaced, the store
is unchanged, and the in-memory pastReports list still grows by one
report; an open failure during load is likewise silent: the state,
with its absent error message, is untouched. -/
theorem storage_failure_counterexample :
    saveToStore (initDB exStateDup.db) exSr = none ∧
    (generatePDF exStateDup 5 false).error = none ∧
    (generatePDF exStateDup 5 false).db = exStateDup.db ∧
    (generatePDF exStateDup 5 false).pastReports.length =
      exStateDup.pastReports.length + 1 ∧
    loadReports exStateDup true false = exStateDup ∧
    (loadReports exStateDup true false).error = none :=
  ⟨by decide, by decide, by decide, by decide, by decide, by decide⟩

theorem mapWithIndex_length (f : Nat → α → β) (n : Nat) (l : List α) :
    (mapWithIndex f n l).length = l.length := by
  induction l generalizing n with
  | nil => rfl
  | cons x xs ih => simp [mapWithIndex, ih]

theorem mapWithIndex_getElem? (f : Nat → α → β) (n j : Nat) (l : List α) :
    (mapWithIndex f n l)[j]? = (l[j]?).map (f (n + j)) := by
  induction l generalizing n j with
  | nil => simp [mapWithIndex]
  | cons x xs ih =>
    cases j with
    | zero => simp [mapWithIndex]
    | succ j =>
      have e : n + (j + 1) = n + 1 + j := by omega
      simp only [mapWithIndex, List.getElem?_cons_succ, e]
      exact ih (n + 1) j

/-- C9: updateTask touches only the addressed field of the addressed
task: every non-task field of the report, the task-list length, and the
task at every other index are unchanged; the task at the addressed
index has exactly the addressed field replaced by the given value and
every other field untouched. -/
theorem updateTask_frame (r : Report) (i j : Nat) (u : TaskUpdate)
    (g : TaskField) (t : Task) (hj : j ≠ i) (hg : g ≠ u.field) :
    (updateTask r i u).id = r.id ∧
    (updateTask r i u).date = r.date ∧
    (updateTask r i u).firstName = r.firstName ∧
    (updateTask r i u).lastName = r.lastName ∧
    (updateTask r i u).arrivalTime = r.arrivalTime ∧
    (updateTask r i u).departureTime = r.departureTime ∧
    (updateTask r i u).plannedTasks = r.plannedTasks ∧
    (updateTask r i u).tasks.length = r.tasks.length ∧
    (updateTask r i u).tasks[j]? = r.tasks[j]? ∧
    (updateTask r i u).tasks[i]? =
      (r.tasks[i]?).map (fun t0 => t0.setField u) ∧
    (t.setField u).getField g = t.getField g ∧
    (t.setField u).getField u.field = u.val := by
  refine ⟨rfl, rfl, rfl, rfl, rfl, rfl, rfl, ?_, ?_, ?_, ?_, ?_⟩
  · exact mapWithIndex_length _ 0 r.tasks
  · show (mapWithIndex _ 0 r.tasks)[j]? = _
    rw [mapWithIndex_getElem?]
    cases r.tasks[j]? <;> simp [Nat.zero_add, if_neg hj]
  · show (mapWithIndex _ 0 r.tasks)[i]? = _
    rw [mapWithIndex_getElem?]
    cases r.tasks[i]? <;> simp [Nat.zero_add]
  · cases u <;> cases g <;> first | rfl | exact absurd rfl hg
  · cases u <;> rfl

/-- Witness for C9: updating the description of task 0 in a two-task
report. -/
theorem updateTask_frame_witness :
    (updateTask exReport2 0 (TaskUpdate.description "y")).id =
      exReport2.id ∧
    (updateTask exReport2 0 (TaskUpdate.description "y")).date =
      exReport2.date ∧
    (updateTask exReport2 0 (TaskUpdate.description "y")).firstName =
      exReport2.firstName ∧
    (updateTask exReport2 0 (TaskUpdate.description "y")).lastName =
      exReport2.lastName ∧
    (updateTask exReport2 0 (TaskUpdate.description "y")).arrivalTime =
      exReport2.arrivalTime ∧
    (updateTask exReport2 0 (TaskUpdate.description "y")).departureTime =
      exReport2.departureTime ∧
    (updateTask exReport2 0 (TaskUpdate.description "y")).plannedTasks =
      exReport2.plannedTasks ∧
    (updateTask exReport2 0 (TaskUpdate.description "y")).tasks.length =
      exReport2.tasks.length ∧
    (updateTask exReport2 0 (TaskUpdate.description "y")).tasks[1]? =
      exReport2.tasks[1]? ∧
    (updateTask exReport2 0 (TaskUpdate.description "y")).tasks[0]? =
      (exReport2.tasks[0]?).map
        (fun t0 => t0.setField (TaskUpdate.description "y")) ∧
    (exTaskNulls.setField (TaskUpdate.description "y")).getField
      TaskField.startTime = exTaskNulls.getField TaskField.startTime ∧
    (exTaskNulls.setField (TaskUpdate.description "y")).getField
      (TaskUpdate.description "y").field = (TaskUpdate.description "y").val :=
  updateTask_frame exReport2 0 1 (TaskUpdate.description "y")
    TaskField.startTime exTaskNulls (by decide) (by decide)

theorem filterWithIndex_ne (i : Nat) (l : List α) : ∀ n,
    filterWithIndex (fun j _ => decide (j ≠ i)) n l =
      if i < n then l else l.take (i - n) ++ l.drop (i - n + 1) := by
  induction l with
  | nil => intro n; simp [filterWithIndex]
  | cons x xs ih =>
    intro n
    simp only [filterWithIndex, ih (n + 1)]
    by_cases hn : n = i
    · subst hn
      have h1 : ¬ n < n := by omega
      have h2 : n < n + 1 := by omega
      simp [h1, h2]
    · by_cases hlt : i < n
      · have h1 : i < n + 1 := by omega
        simp [hn, hlt, h1]
      · have h1 : ¬ i < n + 1 := by omega
        have e1 : i - n = (i - (n + 1)) + 1 := by omega
        have e2 : i - n + 1 = (i - (n + 1) + 1) + 1 := by omega
        rw [if_pos (show (decide (n ≠ i)) = true by simp [hn]),
          if_neg hlt, if_neg h1, e2, e1, List.take_succ_cons,
          List.drop_succ_cons, List.cons_append]

/-- C10: removeTask removes exactly the task at the given index when it
is in bounds, keeping the remaining tasks in their original relative
order, and leaves the task list entirely unchanged when the index is
out of bounds; every non-task field of the report is unchanged. -/
theorem removeTask_spec (r : Report) (i : Nat) :
    (removeTask r i).tasks = r.tasks.take i ++ r.tasks.drop (i + 1) ∧
    (removeTask r i).tasks =
      (if i < r.tasks.length then r.tasks.eraseIdx i else r.tasks) ∧
    (removeTask r i).id = r.id ∧
    (removeTask r i).date = r.date ∧
    (removeTask r i).firstName = r.firstName ∧
    (removeTask r i).lastName = r.lastName ∧
    (removeTask r i).arrivalTime = r.arrivalTime ∧
    (removeTask r i).departureTime = r.departureTime ∧
    (removeTask r i).plannedTasks = r.plannedTasks := by
  have h0 : (removeTask r i).tasks =
      r.tasks.take i ++ r.tasks.drop (i + 1) := by
    show filterWithIndex _ 0 r.tasks = _
    rw [filterWithIndex_ne i r.tasks 0]
    simp
  refine ⟨h0, ?_, rfl, rfl, rfl, rfl, rfl, rfl, rfl⟩
  rw [h0]
  split
  · rw [List.eraseIdx_eq_take_drop_succ]
  · rename_i hge
    rw [List.take_of_length_le (by omega), List.drop_eq_nil_of_le (by omega)]
    simp


end WorkReports
